import Mathlib

/-!
Verification of the customer classification and aggregation pipeline of the
`new-customers-dashboard` repository (`src/app.py`, `src/generate_report.py`).

The core pipeline is: Cleaner (column presence check, date parsing, trimming,
clip to "today", exclusion list) → Classifier (global first-purchase detection,
day-deduplicated per-month unique customer counts, month range, returning-customer
clamp) → Bucketer (raw per-customer transaction counts, frequency buckets,
distribution and per-bucket listing).

Dates are modelled at day granularity (the code's `pd.Timestamp` values come from
`pd.to_datetime(..., dayfirst=False)` of month/day/year cells and are compared
against a normalized `today`).  Pandas data frames are modelled as lists; `NaN`
cells are modelled as `Option.none`.  Pandas `groupby` sorts its keys, modelled
with the insertion sort `sortStrings`; `drop_duplicates` keeps the first
occurrence, modelled by `dropDupAux` below.  String primitives (trim, split,
digit parsing, code-point comparison) are implemented structurally over
character lists so every definition evaluates by kernel reduction.
-/

/-- A calendar date at day granularity (the only time resolution the pipeline uses). -/
structure Date where
  year : Nat
  month : Nat
  day : Nat
deriving DecidableEq, Repr

/-- Lexicographic key (year, month, day) used to order dates. -/
def Date.key (d : Date) : Nat ×ₗ (Nat ×ₗ Nat) := toLex (d.year, toLex (d.month, d.day))

theorem Date.key_injective : Function.Injective Date.key := by
  intro a b h
  cases a; cases b
  simp only [Date.key, toLex_inj, Prod.mk.injEq] at h
  simp [h.1, h.2.1, h.2.2]

instance : LinearOrder Date := LinearOrder.lift' Date.key Date.key_injective

/-- One cleaned transaction record: the pipeline keeps only the two canonical fields. -/
structure Cleaned where
  date : Date
  customer : String
deriving DecidableEq, Repr

theorem Cleaned.eq_iff (r s : Cleaned) :
    s = r ↔ (s.customer = r.customer ∧ s.date = r.date) := by
  cases r; cases s; simp [and_comm]

/-- Strip leading and trailing whitespace from a character list. -/
def trimChars (l : List Char) : List Char :=
  ((l.dropWhile Char.isWhitespace).reverse.dropWhile Char.isWhitespace).reverse

/-- Python's `str.strip()` / pandas `.str.strip()`: drop surrounding whitespace. -/
def strTrim (s : String) : String :=
  String.mk (trimChars s.data)

/-- Code-point lexicographic comparison of character lists (the order Python
uses to sort strings, e.g. in pandas `groupby` keys and `sort_values`). -/
def charsLe : List Char → List Char → Bool
  | [], _ => true
  | _ :: _, [] => false
  | a :: as, b :: bs =>
    if a.toNat < b.toNat then true
    else if b.toNat < a.toNat then false
    else charsLe as bs

/-- String comparison by code points. -/
def strLe (a b : String) : Bool :=
  charsLe a.data b.data

/-- Split a character list on a separator character (`str.split("/")`). -/
def splitOnChar (c : Char) : List Char → List (List Char)
  | [] => [[]]
  | a :: as =>
    match splitOnChar c as with
    | [] => [[]]
    | grp :: rest => if a = c then [] :: grp :: rest else (a :: grp) :: rest

/-- Read a nonempty all-digit character list as a number, `none` otherwise. -/
def digitsToNat? (l : List Char) : Option Nat :=
  if l = [] then none
  else l.foldl (fun acc c =>
    match acc with
    | some n => if 48 ≤ c.toNat ∧ c.toNat ≤ 57 then some (n * 10 + (c.toNat - 48)) else none
    | none => none) (some 0)

/-- Whether a year is a Gregorian leap year (used to validate parsed days). -/
def isLeap (y : Nat) : Bool :=
  y % 4 = 0 && (y % 100 ≠ 0 || y % 400 = 0)

/-- Number of days of month `m` in year `y`. -/
def monthLength (y m : Nat) : Nat :=
  if m = 2 then (if isLeap y then 29 else 28)
  else if m = 4 || m = 6 || m = 9 || m = 11 then 30
  else 31

/-- Model of `pd.to_datetime(x, dayfirst=False, errors="coerce")` on the
month/day/year cells this sheet holds: parse `"M/D/YYYY"`, yield `none`
(pandas `NaT`, subsequently dropped) on anything that does not parse as a
valid calendar date. -/
def parseDate (s : String) : Option Date :=
  match (splitOnChar '/' (trimChars s.data)).map digitsToNat? with
  | [some m, some d, some y] =>
    if 1 ≤ m ∧ m ≤ 12 ∧ 1 ≤ d ∧ d ≤ monthLength y m then some ⟨y, m, d⟩ else none
  | _ => none

/-- One raw sheet row: an association of column names to cell values,
`none` modelling a missing value (pandas `NaN`). -/
structure RawRow where
  cells : List (String × Option String)
deriving DecidableEq, Repr

/-- Cell lookup by column name (first matching column, as in a data frame). -/
def RawRow.get (row : RawRow) (col : String) : Option String :=
  match row.cells.find? (fun p => p.1 = col) with
  | some p => p.2
  | none => none

/-- The raw tabular input: the data frame built from `ws.get_all_records()`. -/
structure RawTable where
  cols : List String
  rows : List RawRow
deriving DecidableEq, Repr

/-- `df_raw.rename(columns={c: str(c).strip() for c in df_raw.columns})`:
strip whitespace from every column name. -/
def renameStrip (tbl : RawTable) : RawTable :=
  { cols := tbl.cols.map (fun c => strTrim c),
    rows := tbl.rows.map (fun row => { cells := row.cells.map (fun p => (strTrim p.1, p.2)) }) }

/-- `EXCLUDED = [s.strip() for s in excluded_text.splitlines() if s.strip()]`:
trim each configured exclusion line and drop blank lines. -/
def processExcluded (lines : List String) : List String :=
  (lines.map (fun s => strTrim s)).filter (fun s => ¬ s = "")

/-- The Cleaner (app.py lines 59-67 / generate_report.py lines 32-40):
select the two configured columns, drop rows with a missing cell (`dropna`),
parse the date and drop rows whose date fails to parse, trim the customer id,
keep only dates `≤ today`, and, when the exclusion list is nonempty, drop
records whose customer id is in it. -/
def clean (tbl : RawTable) (dateCol custCol : String) (excluded : List String)
    (today : Date) : List Cleaned :=
  let selected := tbl.rows.filterMap (fun row =>
    match row.get dateCol, row.get custCol with
    | some dstr, some cstr =>
      match parseDate dstr with
      | some d => some { date := d, customer := strTrim cstr }
      | none => none
    | _, _ => none)
  let upToToday := selected.filter (fun r => decide (r.date ≤ today))
  if excluded = [] then upToToday
  else upToToday.filter (fun r => decide (¬ r.customer ∈ excluded))

/-- Insert a string into a sorted list (code-point order). -/
def insertSorted (s : String) : List String → List String
  | [] => [s]
  | x :: xs => if strLe s x then s :: x :: xs else x :: insertSorted s xs

/-- Pandas' sort of string keys (groupby sorts its group keys; `sort_values`
sorts rows): insertion sort in code-point order. -/
def sortStrings (l : List String) : List String :=
  l.foldr insertSorted []

/-- The distinct customers of a cleaned set, in groupby key order
(`df.groupby(CUSTOMER_COL)` keys). -/
def customersAll (l : List Cleaned) : List String :=
  sortStrings ((l.map (fun r => r.customer)).dedup)

/-- All transaction dates of one customer in a cleaned set. -/
def custDates (l : List Cleaned) (c : String) : List Date :=
  (l.filter (fun r => decide (r.customer = c))).map (fun r => r.date)

/-- `first_purchase = df.groupby(CUSTOMER_COL)[DATE_COL].min()` (app.py line 77 /
generate_report.py line 45): the minimum transaction date of a customer across
ALL cleaned records, regardless of year. -/
def first_purchase (l : List Cleaned) (c : String) : Option Date :=
  (custDates l c).min?

/-- `new_monthly` membership (app.py lines 81-86): the customers whose global
first purchase falls in month `m` of year `y`.  The code keeps the
`first_purchase` rows with `year == y` and groups them by month; `new_count`
below is the per-month group size. -/
def new_customers_list (l : List Cleaned) (y m : Nat) : List String :=
  (customersAll l).filter (fun c =>
    match first_purchase l c with
    | some d => decide (d.year = y ∧ d.month = m)
    | none => false)

/-- `new_customers` count for month `m` of year `y` (0 when the month is absent
from `new_monthly`, as filled by the left merge's `fillna(0)`). -/
def new_count (l : List Cleaned) (y m : Nat) : Nat :=
  (new_customers_list l y m).length

/-- `df_year = df[df[DATE_COL].dt.year == year_opt]` (app.py line 89 /
generate_report.py line 55). -/
def df_year (l : List Cleaned) (y : Nat) : List Cleaned :=
  l.filter (fun r => decide (r.date.year = y))

/-- `drop_duplicates(subset=[CUSTOMER_COL, "date_day"])` with pandas' default
`keep="first"`: keep the first record of each (customer, day) pair.  A
`Cleaned` record has exactly those two fields, so duplicates of the key are
duplicates of the record. -/
def dropDupAux (seen : List Cleaned) : List Cleaned → List Cleaned
  | [] => []
  | r :: rest =>
    if r ∈ seen then dropDupAux seen rest
    else r :: dropDupAux (r :: seen) rest

/-- See `dropDupAux`: keep the first occurrence of each (customer, day) key. -/
def drop_duplicates (l : List Cleaned) : List Cleaned :=
  dropDupAux [] l

/-- `df_year_unique` (app.py line 92 / generate_report.py line 58): the year's
records, day-deduplicated per customer.  `date_day` is `dt.normalize()` of the
date, which at our day granularity is the date itself. -/
def df_year_unique (l : List Cleaned) (y : Nat) : List Cleaned :=
  drop_duplicates (df_year l y)

/-- `total_monthly` membership (app.py lines 94-98): the distinct customers
with at least one (day-deduplicated) record in month `m` of the selected year. -/
def total_unique_list (l : List Cleaned) (y m : Nat) : List String :=
  (((df_year_unique l y).filter (fun r => decide (r.date.month = m))).map
    (fun r => r.customer)).dedup

/-- `total_unique_customers` for month `m`: `groupby("month")[CUSTOMER_COL].nunique()`,
0 when the month is absent (left merge + `fillna(0)`). -/
def total_unique_count (l : List Cleaned) (y m : Nat) : Nat :=
  (total_unique_list l y m).length

/-- Zero-pad a month number to two digits, as the `f"{year_opt}-{m:02d}"` label does. -/
def pad2 (m : Nat) : String :=
  if m < 10 then "0" ++ toString m else toString m

/-- One row of the Classifier's result table `res` (app.py lines 101-109). -/
structure MonthStat where
  month : Nat
  total_unique_customers : Nat
  new_customers : Nat
  returning_customers : Int
  month_label : String
deriving DecidableEq, Repr

/-- The Classifier (app.py lines 101-109 / generate_report.py lines 65-73):
emit months `1..max_month` where `max_month` is the current month when the
selected year is the current year and 12 otherwise; left-merge the monthly
counts with `fillna(0)`; `returning_customers` is the difference clipped at 0. -/
def classify (l : List Cleaned) (y : Nat) (today : Date) : List MonthStat :=
  let max_month := if y = today.year then today.month else 12
  (List.range' 1 max_month).map (fun m =>
    { month := m,
      total_unique_customers := total_unique_count l y m,
      new_customers := new_count l y m,
      returning_customers := max ((total_unique_count l y m : Int) - (new_count l y m : Int)) 0,
      month_label := toString y ++ "-" ++ pad2 m })

/-- A customer's raw in-year transaction count: `df_year.groupby(CUSTOMER_COL).size()`
(app.py line 138 / generate_report.py line 97).  Every row counts; no day-dedup. -/
def tx_count (l : List Cleaned) (y : Nat) (c : String) : Nat :=
  ((df_year l y).filter (fun r => decide (r.customer = c))).length

/-- The distinct customers with at least one transaction in year `y`, in
groupby key order. -/
def customersOfYear (l : List Cleaned) (y : Nat) : List String :=
  sortStrings (((df_year l y).map (fun r => r.customer)).dedup)

/-- `tx_per_customer`: one (customer, raw count) pair per distinct in-year customer. -/
def tx_per_customer (l : List Cleaned) (y : Nat) : List (String × Nat) :=
  (customersOfYear l y).map (fun c => (c, tx_count l y c))

/-- `def to_bucket(n): return "5+" if n >= 5 else str(int(n))` (app.py line 139). -/
def to_bucket (n : Nat) : String :=
  if 5 ≤ n then "5+" else toString n

/-- The fixed bucket display order `order = ["1","2","3","4","5+"]` (app.py line 145). -/
def bucket_order : List String := ["1", "2", "3", "4", "5+"]

/-- The `tx_per_customer` rows falling in bucket `b`. -/
def bucketRows (l : List Cleaned) (y : Nat) (b : String) : List (String × Nat) :=
  (tx_per_customer l y).filter (fun p => decide (to_bucket p.2 = b))

/-- `dist` (app.py lines 143-147): customers-per-bucket counts, one row per
nonempty bucket (groupby emits only nonempty groups), in the fixed order
`1,2,3,4,5+` (the `order.index` sort). -/
def dist (l : List Cleaned) (y : Nat) : List (String × Nat) :=
  (bucket_order.filter (fun b => decide (¬ bucketRows l y b = []))).map
    (fun b => (b, (bucketRows l y b).length))

/-- `lists_by_bucket` (app.py lines 157-160): per nonempty bucket, the
lexicographically sorted customer identifiers (the `sort_values` before the
groupby) and their count. -/
def lists_by_bucket (l : List Cleaned) (y : Nat) : List (String × List String × Nat) :=
  (bucket_order.filter (fun b => decide (¬ bucketRows l y b = []))).map
    (fun b => (b, sortStrings ((bucketRows l y b).map (fun p => p.1)),
               (bucketRows l y b).length))

/-- The configuration error reported when an expected column is missing
(app.py lines 53-55). -/
def configError (dateCol custCol : String) (cols : List String) : String :=
  "expected columns not found: " ++ dateCol ++ ", " ++ custCol ++
    "; available: " ++ toString cols

/-- The full pipeline of `app.py`: check that the configured date and customer
columns are present in the raw columns (lines 53-55; `st.error` + `st.stop` on
failure, modelled as `Except.error`, halting everything downstream), then
clean, classify and bucket.  `generate_report.py` has no explicit check: its
column selection (line 32) raises a `KeyError` on a missing column, likewise
halting before any classification. -/
def pipeline (tbl : RawTable) (dateCol custCol : String) (excludedLines : List String)
    (today : Date) (year : Nat) :
    Except String (List MonthStat × List (String × Nat) × List (String × List String × Nat)) :=
  if dateCol ∈ tbl.cols ∧ custCol ∈ tbl.cols then
    let cleaned := clean (renameStrip tbl) dateCol custCol (processExcluded excludedLines) today
    Except.ok (classify cleaned year today, dist cleaned year, lists_by_bucket cleaned year)
  else
    Except.error (configError dateCol custCol tbl.cols)

/-- The customers of the records of `l` active in month `m` of year `y`
(with multiplicity): an abstraction used to count `total_unique_customers`. -/
def activeCustomers (l : List Cleaned) (y m : Nat) : List String :=
  (l.filter (fun r => decide (r.date.year = y ∧ r.date.month = m))).map
    (fun r => r.customer)

/-! ### Concrete inputs used by the witness instances -/

/-- A one-record data set in a past year. -/
def wl1 : List Cleaned := [⟨⟨2023, 1, 5⟩, "A"⟩]

/-- A reference "today" in March 2024. -/
def wtoday1 : Date := ⟨2024, 3, 10⟩

/-- The zero-activity February row the Classifier emits for `wl1` in 2023. -/
def wstat1 : MonthStat :=
  { month := 2, total_unique_customers := 0, new_customers := 0,
    returning_customers := 0, month_label := "2023-02" }

/-- One customer active in two different years; first transaction 2023-03-05. -/
def wl3 : List Cleaned := [⟨⟨2023, 3, 5⟩, "A"⟩, ⟨⟨2024, 1, 7⟩, "A"⟩]

/-- Two same-day transactions by the same customer. -/
def wl4 : List Cleaned := [⟨⟨2024, 1, 5⟩, "A"⟩, ⟨⟨2024, 1, 5⟩, "A"⟩]

/-- A single-transaction data set. -/
def wl5 : List Cleaned := [⟨⟨2024, 1, 5⟩, "A"⟩]

/-- A data set whose only record is outside the selected year 2024. -/
def wl9 : List Cleaned := [⟨⟨2023, 5, 5⟩, "A"⟩]

/-- The zero-filled January row the Classifier emits for `wl9` in 2024. -/
def wstat9 : MonthStat :=
  { month := 1, total_unique_customers := 0, new_customers := 0,
    returning_customers := 0, month_label := "2024-01" }

/-- A raw table with one well-formed row (untrimmed customer cell). -/
def wtbl7 : RawTable :=
  ⟨["date", "customer"], [⟨[("date", some "3/5/2023"), ("customer", some " Bob ")]⟩]⟩

/-- A raw table whose single row has a valid date and a blank (but present)
customer cell. -/
def wtblBlank : RawTable :=
  ⟨["date", "customer"], [⟨[("date", some "01/05/2024"), ("customer", some "  ")]⟩]⟩

/-- A raw table without the configured date column. -/
def wtbl8 : RawTable := ⟨["date", "customer"], []⟩

/-! ### Infrastructure lemmas -/

theorem mem_dropDupAux (r : Cleaned) :
    ∀ (l seen : List Cleaned), r ∈ dropDupAux seen l ↔ (r ∈ l ∧ ¬ r ∈ seen) := by
  intro l
  induction l with
  | nil => intro seen; simp [dropDupAux]
  | cons x xs ih =>
    intro seen
    by_cases hx : x ∈ seen
    · simp only [dropDupAux, if_pos hx, ih, List.mem_cons]
      constructor
      · rintro ⟨hr, hs⟩; exact ⟨Or.inr hr, hs⟩
      · rintro ⟨hr | hr, hs⟩
        · subst hr; exact absurd hx hs
        · exact ⟨hr, hs⟩
    · simp only [dropDupAux, if_neg hx, List.mem_cons, ih]
      constructor
      · rintro (hr | ⟨hr, hs⟩)
        · subst hr; exact ⟨Or.inl rfl, hx⟩
        · push_neg at hs
          exact ⟨Or.inr hr, hs.2⟩
      · rintro ⟨hr | hr, hs⟩
        · exact Or.inl hr
        · by_cases hrx : r = x
          · exact Or.inl hrx
          · exact Or.inr ⟨hr, by simp [hrx, hs]⟩

theorem mem_drop_duplicates (r : Cleaned) (l : List Cleaned) :
    r ∈ drop_duplicates l ↔ r ∈ l := by
  simp [drop_duplicates, mem_dropDupAux]

theorem insertSorted_perm (s : String) (l : List String) :
    (insertSorted s l).Perm (s :: l) := by
  induction l with
  | nil => simp [insertSorted]
  | cons x xs ih =>
    by_cases h : strLe s x
    · simp [insertSorted, h]
    · simp only [insertSorted, if_neg h]
      exact ((ih.cons x).trans (List.Perm.swap s x xs))

theorem sortStrings_perm (l : List String) : (sortStrings l).Perm l := by
  induction l with
  | nil => simp [sortStrings]
  | cons x xs ih =>
    have : sortStrings (x :: xs) = insertSorted x (sortStrings xs) := rfl
    rw [this]
    exact (insertSorted_perm x (sortStrings xs)).trans (ih.cons x)

theorem mem_sortStrings (s : String) (l : List String) :
    s ∈ sortStrings l ↔ s ∈ l :=
  (sortStrings_perm l).mem_iff

theorem nodup_sortStrings (l : List String) (h : l.Nodup) : (sortStrings l).Nodup :=
  ((sortStrings_perm l).nodup_iff).mpr h

theorem length_sortStrings (l : List String) : (sortStrings l).length = l.length :=
  (sortStrings_perm l).length_eq

/-! ### Characterizations of the pipeline's aggregations -/

theorem mem_custDates (l : List Cleaned) (c : String) (e : Date) :
    e ∈ custDates l c ↔ ∃ r ∈ l, r.customer = c ∧ r.date = e := by
  simp only [custDates, List.mem_map, List.mem_filter, decide_eq_true_eq]
  constructor
  · rintro ⟨r, ⟨hr, hc⟩, hd⟩; exact ⟨r, hr, hc, hd⟩
  · rintro ⟨r, hr, hc, hd⟩; exact ⟨r, ⟨hr, hc⟩, hd⟩

theorem first_purchase_mem (l : List Cleaned) (c : String) (d : Date)
    (h : first_purchase l c = some d) : d ∈ custDates l c :=
  List.min?_mem (fun a b => min_choice a b) h

theorem first_purchase_le (l : List Cleaned) (c : String) (d : Date)
    (h : first_purchase l c = some d) : ∀ e ∈ custDates l c, d ≤ e :=
  (List.le_min?_iff (fun _ _ _ => le_min_iff) h).mp (le_refl d)

theorem mem_customersAll (l : List Cleaned) (c : String) :
    c ∈ customersAll l ↔ ∃ r ∈ l, r.customer = c := by
  simp only [customersAll, mem_sortStrings, List.mem_dedup, List.mem_map]

theorem nodup_customersAll (l : List Cleaned) : (customersAll l).Nodup :=
  nodup_sortStrings _ (List.nodup_dedup _)

theorem first_purchase_mem_customersAll (l : List Cleaned) (c : String) (d : Date)
    (h : first_purchase l c = some d) : c ∈ customersAll l := by
  obtain ⟨r, hr, hc, _⟩ := (mem_custDates l c d).mp (first_purchase_mem l c d h)
  exact (mem_customersAll l c).mpr ⟨r, hr, hc⟩

theorem mem_new_customers_list (l : List Cleaned) (y m : Nat) (c : String) :
    c ∈ new_customers_list l y m ↔
      ∃ d, first_purchase l c = some d ∧ d.year = y ∧ d.month = m := by
  simp only [new_customers_list, List.mem_filter]
  constructor
  · rintro ⟨-, hp⟩
    cases hfp : first_purchase l c with
    | none => rw [hfp] at hp; simp at hp
    | some d =>
      rw [hfp] at hp
      simp only [decide_eq_true_eq] at hp
      exact ⟨d, rfl, hp⟩
  · rintro ⟨d, hfp, hy, hm⟩
    refine ⟨first_purchase_mem_customersAll l c d hfp, ?_⟩
    rw [hfp]
    simp [hy, hm]

theorem nodup_new_customers_list (l : List Cleaned) (y m : Nat) :
    (new_customers_list l y m).Nodup :=
  (nodup_customersAll l).filter _

theorem mem_df_year (l : List Cleaned) (y : Nat) (r : Cleaned) :
    r ∈ df_year l y ↔ r ∈ l ∧ r.date.year = y := by
  simp [df_year, List.mem_filter]

theorem mem_total_unique_list (l : List Cleaned) (y m : Nat) (c : String) :
    c ∈ total_unique_list l y m ↔
      ∃ r ∈ l, r.customer = c ∧ r.date.year = y ∧ r.date.month = m := by
  simp only [total_unique_list, List.mem_dedup, List.mem_map, List.mem_filter,
    df_year_unique, mem_drop_duplicates, mem_df_year, decide_eq_true_eq]
  constructor
  · rintro ⟨r, ⟨⟨hr, hy⟩, hm⟩, hc⟩; exact ⟨r, hr, hc, hy, hm⟩
  · rintro ⟨r, hr, hc, hy, hm⟩; exact ⟨r, ⟨⟨hr, hy⟩, hm⟩, hc⟩

theorem nodup_total_unique_list (l : List Cleaned) (y m : Nat) :
    (total_unique_list l y m).Nodup :=
  List.nodup_dedup _

theorem mem_activeCustomers (l : List Cleaned) (y m : Nat) (c : String) :
    c ∈ activeCustomers l y m ↔
      ∃ r ∈ l, r.customer = c ∧ r.date.year = y ∧ r.date.month = m := by
  simp only [activeCustomers, List.mem_map, List.mem_filter, decide_eq_true_eq]
  constructor
  · rintro ⟨r, ⟨hr, hy, hm⟩, hc⟩; exact ⟨r, hr, hc, hy, hm⟩
  · rintro ⟨r, hr, hc, hy, hm⟩; exact ⟨r, ⟨hr, hy, hm⟩, hc⟩

theorem total_unique_count_eq_card (l : List Cleaned) (y m : Nat) :
    total_unique_count l y m = (activeCustomers l y m).toFinset.card := by
  have h1 : total_unique_count l y m = (total_unique_list l y m).toFinset.card := by
    rw [List.card_toFinset]
    simp [total_unique_count, total_unique_list, List.dedup_idem]
  rw [h1]
  congr 1
  ext c
  simp only [List.mem_toFinset, mem_total_unique_list, mem_activeCustomers]

/-! ### Bucketer lemmas -/

theorem mem_customersOfYear (l : List Cleaned) (y : Nat) (c : String) :
    c ∈ customersOfYear l y ↔ ∃ r ∈ df_year l y, r.customer = c := by
  simp only [customersOfYear, mem_sortStrings, List.mem_dedup, List.mem_map]

theorem nodup_customersOfYear (l : List Cleaned) (y : Nat) :
    (customersOfYear l y).Nodup :=
  nodup_sortStrings _ (List.nodup_dedup _)

theorem tx_count_pos (l : List Cleaned) (y : Nat) (c : String)
    (h : c ∈ customersOfYear l y) : 1 ≤ tx_count l y c := by
  obtain ⟨r, hr, hc⟩ := (mem_customersOfYear l y c).mp h
  have : r ∈ (df_year l y).filter (fun r => decide (r.customer = c)) := by
    simp [List.mem_filter, hr, hc]
  calc 1 ≤ 1 := le_refl 1
    _ ≤ _ := List.length_pos.mpr (List.ne_nil_of_mem this)

theorem mem_tx_per_customer (l : List Cleaned) (y : Nat) (p : String × Nat) :
    p ∈ tx_per_customer l y ↔ p.1 ∈ customersOfYear l y ∧ p.2 = tx_count l y p.1 := by
  simp only [tx_per_customer, List.mem_map]
  constructor
  · rintro ⟨c, hc, hp⟩; cases hp; exact ⟨hc, rfl⟩
  · rintro ⟨hc, hp⟩
    exact ⟨p.1, hc, by cases p; simp_all⟩

theorem to_bucket_mem_order (n : Nat) (h : 1 ≤ n) : to_bucket n ∈ bucket_order := by
  by_cases h5 : 5 ≤ n
  · simp [to_bucket, h5, bucket_order]
  · have h4 : n ≤ 4 := by omega
    interval_cases n <;> decide

theorem sum_map_add_nat {α : Type} (f g : α → Nat) :
    ∀ l : List α, (l.map (fun x => f x + g x)).sum = (l.map f).sum + (l.map g).sum := by
  intro l
  induction l with
  | nil => rfl
  | cons x xs ih => simp [ih]; omega

theorem sum_indicator_of_not_mem (a : String) :
    ∀ B : List String, ¬ a ∈ B → ((B.map (fun b => if a = b then 1 else 0)).sum : Nat) = 0 := by
  intro B
  induction B with
  | nil => intro; rfl
  | cons b B ih =>
    intro h
    rw [List.mem_cons] at h
    push_neg at h
    simp [h.1, ih h.2]

theorem sum_indicator_nodup (a : String) :
    ∀ B : List String, B.Nodup → a ∈ B →
      ((B.map (fun b => if a = b then 1 else 0)).sum : Nat) = 1 := by
  intro B
  induction B with
  | nil => intro _ h; simp at h
  | cons b B ih =>
    intro hnd hmem
    rw [List.nodup_cons] at hnd
    rcases List.mem_cons.mp hmem with h | h
    · subst h
      simp [sum_indicator_of_not_mem a B hnd.1]
    · have hab : ¬ a = b := by rintro rfl; exact hnd.1 h
      simp [hab, ih hnd.2 h]

/-- Partition counting: when every element's key lies in a duplicate-free key
list `B`, the filtered group sizes over `B` add up to the whole list's length. -/
theorem length_eq_sum_filter_key {α : Type} (key : α → String) (B : List String)
    (hB : B.Nodup) :
    ∀ L : List α, (∀ x ∈ L, key x ∈ B) →
      ((B.map (fun b => (L.filter (fun x => decide (key x = b))).length)).sum : Nat)
        = L.length := by
  intro L
  induction L with
  | nil => intro; simp
  | cons x L ih =>
    intro hcov
    have hx : key x ∈ B := hcov x (List.mem_cons_self x L)
    have hcov' : ∀ z ∈ L, key z ∈ B := fun z hz => hcov z (List.mem_cons_of_mem x hz)
    have hsplit : ∀ b, ((x :: L).filter (fun z => decide (key z = b))).length
        = (if key x = b then 1 else 0) + (L.filter (fun z => decide (key z = b))).length := by
      intro b
      by_cases h : key x = b
      · simp [List.filter_cons, h]
        omega
      · simp [List.filter_cons, h]
    have : (B.map (fun b => ((x :: L).filter (fun z => decide (key z = b))).length)).sum
        = (B.map (fun b => (if key x = b then 1 else 0)
            + (L.filter (fun z => decide (key z = b))).length)).sum := by
      congr 1
      exact List.map_congr_left (fun b _ => hsplit b)
    rw [this, sum_map_add_nat, sum_indicator_nodup (key x) B hB hx, ih hcov']
    simp [Nat.add_comm]

theorem sum_length_filter_ne_nil {β : Type} [DecidableEq β] (f : String → List β) :
    ∀ B : List String,
      (((B.filter (fun b => decide (¬ f b = []))).map (fun b => (f b).length)).sum : Nat)
        = (B.map (fun b => (f b).length)).sum := by
  intro B
  induction B with
  | nil => rfl
  | cons b B ih =>
    rw [List.filter_cons]
    by_cases h : f b = []
    · have hd : decide (¬ f b = []) = false := by simp [h]
      rw [hd]
      simp only [Bool.false_eq_true, if_false, List.map_cons, List.sum_cons, ih, h,
        List.length_nil, Nat.zero_add]
    · have hd : decide (¬ f b = []) = true := by simp [h]
      rw [hd]
      simp only [if_true, List.map_cons, List.sum_cons, ih]

/-! ### Classifier lemmas -/

theorem mem_classify (l : List Cleaned) (y : Nat) (today : Date) (s : MonthStat) :
    s ∈ classify l y today ↔
      ∃ m ∈ List.range' 1 (if y = today.year then today.month else 12),
        s = { month := m,
              total_unique_customers := total_unique_count l y m,
              new_customers := new_count l y m,
              returning_customers :=
                max ((total_unique_count l y m : Int) - (new_count l y m : Int)) 0,
              month_label := toString y ++ "-" ++ pad2 m } := by
  simp only [classify, List.mem_map]
  constructor
  · rintro ⟨m, hm, rfl⟩; exact ⟨m, hm, rfl⟩
  · rintro ⟨m, hm, rfl⟩; exact ⟨m, hm, rfl⟩

theorem classify_map_month (l : List Cleaned) (y : Nat) (today : Date) :
    (classify l y today).map (fun s => s.month)
      = List.range' 1 (if y = today.year then today.month else 12) := by
  rw [classify, List.map_map]
  exact List.map_id _

theorem total_unique_count_eq_zero (l : List Cleaned) (y m : Nat)
    (h : ∀ r ∈ l, ¬ (r.date.year = y ∧ r.date.month = m)) :
    total_unique_count l y m = 0 := by
  have hnil : total_unique_list l y m = [] := by
    rw [List.eq_nil_iff_forall_not_mem]
    intro c hc
    obtain ⟨r, hr, _, hy, hm⟩ := (mem_total_unique_list l y m c).mp hc
    exact h r hr ⟨hy, hm⟩
  simp [total_unique_count, hnil]

theorem new_count_eq_zero (l : List Cleaned) (y m : Nat)
    (h : ∀ r ∈ l, ¬ (r.date.year = y ∧ r.date.month = m)) :
    new_count l y m = 0 := by
  have hnil : new_customers_list l y m = [] := by
    rw [List.eq_nil_iff_forall_not_mem]
    intro c hc
    obtain ⟨d, hfp, hy, hm⟩ := (mem_new_customers_list l y m c).mp hc
    obtain ⟨r, hr, _, hdr⟩ := (mem_custDates l c d).mp (first_purchase_mem l c d hfp)
    exact h r hr ⟨by rw [hdr]; exact hy, by rw [hdr]; exact hm⟩
  simp [new_count, hnil]

/-! ### Claim theorems -/

/-- C1: for every cleaned transaction set and selected year, the Classifier
emits exactly one row per month, contiguous and ascending — months 1..12 when
the selected year differs from today's year (in particular every past year),
and 1..today's month when it is today's year; and a month with no activity in
the selected year is still emitted with both counts 0.  No month outside the
range appears since the emitted month list is exactly the range. -/
theorem month_range_classifier (l : List Cleaned) (y : Nat) (today : Date) :
    (classify l y today).map (fun s => s.month)
        = List.range' 1 (if y = today.year then today.month else 12) ∧
    ∀ s ∈ classify l y today,
      (∀ r ∈ l, ¬ (r.date.year = y ∧ r.date.month = s.month)) →
      s.total_unique_customers = 0 ∧ s.new_customers = 0 := by
  refine ⟨classify_map_month l y today, ?_⟩
  intro s hs hact
  obtain ⟨m, hm, rfl⟩ := (mem_classify l y today s).mp hs
  exact ⟨total_unique_count_eq_zero l y m hact, new_count_eq_zero l y m hact⟩

/-- C1 witness: on a concrete one-record 2023 data set viewed from 2024-03-10,
the Classifier emits exactly months 1..12, and its zero-activity February row
carries both counts 0. -/
theorem month_range_classifier_check :
    (classify wl1 2023 wtoday1).map (fun s => s.month) = List.range' 1 12 ∧
    wstat1.total_unique_customers = 0 ∧ wstat1.new_customers = 0 :=
  ⟨(month_range_classifier wl1 2023 wtoday1).1,
   (month_range_classifier wl1 2023 wtoday1).2 wstat1 (by decide) (by decide)⟩

/-- C2: every emitted month row has
`returningCustomers = max (totalUniqueCustomers - newCustomers) 0`, hence
`returningCustomers ≥ 0`. -/
theorem returning_clamp_formula (l : List Cleaned) (y : Nat) (today : Date) :
    ∀ s ∈ classify l y today,
      s.returning_customers
          = max ((s.total_unique_customers : Int) - (s.new_customers : Int)) 0 ∧
      0 ≤ s.returning_customers := by
  intro s hs
  obtain ⟨m, hm, rfl⟩ := (mem_classify l y today s).mp hs
  exact ⟨rfl, le_max_right _ _⟩

/-- C2 witness: the clamp formula and nonnegativity at a concrete emitted row. -/
theorem returning_clamp_formula_check :
    wstat1.returning_customers
        = max ((wstat1.total_unique_customers : Int) - (wstat1.new_customers : Int)) 0 ∧
    0 ≤ wstat1.returning_customers :=
  returning_clamp_formula wl1 2023 wtoday1 wstat1 (by decide)

/-- C10: in every emitted month row, `newCustomers ≤ totalUniqueCustomers`
already holds before the clamp (a customer whose global first purchase falls in
that month has a transaction that month, so is among the month's distinct
customers), and therefore the floor at 0 never changes the value:
`returningCustomers` equals the plain difference. -/
theorem clamp_never_triggers (l : List Cleaned) (y : Nat) (today : Date) :
    ∀ s ∈ classify l y today,
      s.new_customers ≤ s.total_unique_customers ∧
      s.returning_customers
          = (s.total_unique_customers : Int) - (s.new_customers : Int) := by
  intro s hs
  obtain ⟨m, hm, rfl⟩ := (mem_classify l y today s).mp hs
  have hsub : new_customers_list l y m ⊆ total_unique_list l y m := by
    intro c hc
    obtain ⟨d, hfp, hy, hmm⟩ := (mem_new_customers_list l y m c).mp hc
    obtain ⟨r, hr, hcr, hdr⟩ := (mem_custDates l c d).mp (first_purchase_mem l c d hfp)
    exact (mem_total_unique_list l y m c).mpr
      ⟨r, hr, hcr, by rw [hdr]; exact hy, by rw [hdr]; exact hmm⟩
  have hlen : new_count l y m ≤ total_unique_count l y m :=
    (List.subperm_of_subset (nodup_new_customers_list l y m) hsub).length_le
  refine ⟨hlen, ?_⟩
  show max ((total_unique_count l y m : Int) - (new_count l y m : Int)) 0 = _
  rw [max_eq_left (sub_nonneg.mpr (by exact_mod_cast hlen))]

/-- C10 witness: at a concrete emitted row, the pre-clamp inequality holds and
the clamped value equals the plain difference. -/
theorem clamp_never_triggers_check :
    wstat1.new_customers ≤ wstat1.total_unique_customers ∧
    wstat1.returning_customers
        = (wstat1.total_unique_customers : Int) - (wstat1.new_customers : Int) :=
  clamp_never_triggers wl1 2023 wtoday1 wstat1 (by decide)

/-- C3: first-purchase detection is global.  If a customer's `first_purchase`
is `d`, then `d` is the minimum of all their transaction dates across the whole
cleaned set regardless of year; they are in `new_customers_list` exactly for
(d.year, d.month) — so never for any other year — and whenever they are active
in some (year, month) they are among that month's distinct customers. -/
theorem global_first_purchase (l : List Cleaned) (c : String) (d : Date)
    (hfp : first_purchase l c = some d) :
    (d ∈ custDates l c ∧ ∀ e ∈ custDates l c, d ≤ e) ∧
    (∀ y m, c ∈ new_customers_list l y m ↔ (y = d.year ∧ m = d.month)) ∧
    (∀ y m, y ≠ d.year → ¬ c ∈ new_customers_list l y m) ∧
    (∀ y m, (∃ r ∈ l, r.customer = c ∧ r.date.year = y ∧ r.date.month = m) →
        c ∈ total_unique_list l y m) := by
  have hmem : ∀ y m, c ∈ new_customers_list l y m ↔ (y = d.year ∧ m = d.month) := by
    intro y m
    rw [mem_new_customers_list]
    constructor
    · rintro ⟨d', hfp', hy, hm⟩
      rw [hfp] at hfp'
      obtain rfl : d = d' := Option.some.inj hfp'
      exact ⟨hy.symm, hm.symm⟩
    · rintro ⟨rfl, rfl⟩
      exact ⟨d, hfp, rfl, rfl⟩
  refine ⟨⟨first_purchase_mem l c d hfp, first_purchase_le l c d hfp⟩, hmem, ?_, ?_⟩
  · intro y m hy hc
    exact hy ((hmem y m).mp hc).1
  · rintro y m ⟨r, hr, hcr, hyy, hmm⟩
    exact (mem_total_unique_list l y m c).mpr ⟨r, hr, hcr, hyy, hmm⟩

/-- C3 witness: a customer active in 2023 and 2024 with first transaction
2023-03-05 is a new customer for 2023 month 3, is not a new customer when 2024
is classified, yet counts among the distinct customers of 2024 month 1. -/
theorem global_first_purchase_check :
    "A" ∈ new_customers_list wl3 2023 3 ∧
    ¬ "A" ∈ new_customers_list wl3 2024 1 ∧
    "A" ∈ total_unique_list wl3 2024 1 :=
  have h := global_first_purchase wl3 "A" ⟨2023, 3, 5⟩ (by decide)
  ⟨(h.2.1 2023 3).mpr ⟨rfl, rfl⟩,
   h.2.2.1 2024 1 (by decide),
   h.2.2.2 2024 1 ⟨⟨⟨2024, 1, 7⟩, "A"⟩, by decide, rfl, rfl, rfl⟩⟩

/-- C4: appending two same-day transactions by a customer with no other
activity in that month adds exactly 1 to that month's `totalUniqueCustomers`
(day-dedup before counting distinct customers) but exactly 2 to that
customer's raw Bucketer transaction count. -/
theorem day_dedup_counts (l : List Cleaned) (c : String) (dt : Date) (y : Nat)
    (hy : dt.year = y)
    (hfresh : ∀ r ∈ l, ¬ (r.customer = c ∧ r.date.year = y ∧ r.date.month = dt.month)) :
    total_unique_count (⟨dt, c⟩ :: ⟨dt, c⟩ :: l) y dt.month
        = total_unique_count l y dt.month + 1 ∧
    tx_count (⟨dt, c⟩ :: ⟨dt, c⟩ :: l) y c = tx_count l y c + 2 := by
  subst hy
  constructor
  · rw [total_unique_count_eq_card, total_unique_count_eq_card]
    have hact : activeCustomers (⟨dt, c⟩ :: ⟨dt, c⟩ :: l) dt.year dt.month
        = c :: c :: activeCustomers l dt.year dt.month := by
      simp [activeCustomers, List.filter_cons]
    rw [hact]
    have hnot : ¬ c ∈ (activeCustomers l dt.year dt.month).toFinset := by
      rw [List.mem_toFinset, mem_activeCustomers]
      rintro ⟨r, hr, hcr, hyy, hmm⟩
      exact hfresh r hr ⟨hcr, hyy, hmm⟩
    simp only [List.toFinset_cons, Finset.insert_idem]
    rw [Finset.card_insert_of_not_mem hnot]
  · simp [tx_count, df_year, List.filter_cons]

/-- C4 witness: two same-day transactions, alone in the data set, produce a
month uniqueness count of 1 and a Bucketer transaction count of 2. -/
theorem day_dedup_counts_check :
    total_unique_count wl4 2024 1 = 1 ∧ tx_count wl4 2024 "A" = 2 :=
  day_dedup_counts [] "A" ⟨2024, 1, 5⟩ 2024 rfl (by decide)

/-- C9: when the cleaned set has no record in the selected year, the Classifier
still emits the full configured month range with all three counts 0 in every
row, and the Bucketer's per-customer table, distribution and listing are all
well-formed and empty; no operation fails. -/
theorem empty_year_zero_structures (l : List Cleaned) (y : Nat) (today : Date)
    (h : ∀ r ∈ l, r.date.year ≠ y) :
    (classify l y today).map (fun s => s.month)
        = List.range' 1 (if y = today.year then today.month else 12) ∧
    (∀ s ∈ classify l y today,
      s.total_unique_customers = 0 ∧ s.new_customers = 0 ∧ s.returning_customers = 0) ∧
    tx_per_customer l y = [] ∧ dist l y = [] ∧ lists_by_bucket l y = [] := by
  have hact : ∀ m, ∀ r ∈ l, ¬ (r.date.year = y ∧ r.date.month = m) := by
    intro m r hr hc
    exact h r hr hc.1
  have htx : tx_per_customer l y = [] := by
    have hdf : df_year l y = [] := by
      rw [List.eq_nil_iff_forall_not_mem]
      intro r hr
      obtain ⟨hrl, hry⟩ := (mem_df_year l y r).mp hr
      exact h r hrl hry
    simp [tx_per_customer, customersOfYear, hdf, sortStrings]
  have hrows : ∀ b, bucketRows l y b = [] := by
    intro b
    simp [bucketRows, htx]
  refine ⟨classify_map_month l y today, ?_, htx, ?_, ?_⟩
  · intro s hs
    obtain ⟨m, hm, rfl⟩ := (mem_classify l y today s).mp hs
    have h1 := total_unique_count_eq_zero l y m (hact m)
    have h2 := new_count_eq_zero l y m (hact m)
    refine ⟨h1, h2, ?_⟩
    show max ((total_unique_count l y m : Int) - (new_count l y m : Int)) 0 = 0
    rw [h1, h2]
    simp
  · show (bucket_order.filter (fun b => decide (¬ bucketRows l y b = []))).map
        (fun b => (b, (bucketRows l y b).length)) = []
    rw [List.map_eq_nil_iff, List.filter_eq_nil_iff]
    intro b _
    simp [hrows b]
  · show (bucket_order.filter (fun b => decide (¬ bucketRows l y b = []))).map
        (fun b => (b, sortStrings ((bucketRows l y b).map (fun p => p.1)),
                   (bucketRows l y b).length)) = []
    rw [List.map_eq_nil_iff, List.filter_eq_nil_iff]
    intro b _
    simp [hrows b]

/-- C9 witness: with a data set whose only record is from 2023, classifying
2024 as of 2024-03-10 yields exactly months 1..3, a concrete all-zero row, and
empty Bucketer structures. -/
theorem empty_year_zero_structures_check :
    (classify wl9 2024 wtoday1).map (fun s => s.month) = List.range' 1 3 ∧
    (wstat9.total_unique_customers = 0 ∧ wstat9.new_customers = 0 ∧
      wstat9.returning_customers = 0) ∧
    tx_per_customer wl9 2024 = [] ∧ dist wl9 2024 = [] ∧ lists_by_bucket wl9 2024 = [] :=
  have h := empty_year_zero_structures wl9 2024 wtoday1 (by decide)
  ⟨h.1, h.2.1 wstat9 (by decide), h.2.2⟩

/-- C5: every row of the Bucketer's per-customer table has an in-year raw
transaction count `n ≥ 1`; its bucket is the decimal string of `n` when
`n < 5` and `"5+"` when `n ≥ 5`; and the bucket assigned to a count is a
function of the count alone — any customer of any cleaned set and year with
the same count gets the same bucket, independent of transaction dates. -/
theorem bucket_rule (l : List Cleaned) (y : Nat) :
    ∀ p ∈ tx_per_customer l y,
      1 ≤ p.2 ∧
      (p.2 < 5 → to_bucket p.2 = toString p.2) ∧
      (5 ≤ p.2 → to_bucket p.2 = "5+") ∧
      (∀ (k : List Cleaned) (z : Nat) (c : String),
        tx_count k z c = p.2 → to_bucket (tx_count k z c) = to_bucket p.2) := by
  intro p hp
  obtain ⟨hc, hcount⟩ := (mem_tx_per_customer l y p).mp hp
  refine ⟨?_, ?_, ?_, ?_⟩
  · rw [hcount]
    exact tx_count_pos l y p.1 hc
  · intro h5
    rw [to_bucket, if_neg (by omega)]
  · intro h5
    rw [to_bucket, if_pos h5]
  · intro k z c he
    rw [he]

/-- C5 witness: the single-transaction customer of `wl5` has count 1, lands in
bucket "1", and the bucket depends only on the count. -/
theorem bucket_rule_check :
    (1 : Nat) ≤ 1 ∧ to_bucket 1 = "1" ∧
    to_bucket (tx_count wl5 2024 "A") = to_bucket 1 :=
  have h := bucket_rule wl5 2024 ("A", 1) (by decide)
  ⟨h.1, h.2.1 (by decide), h.2.2.2 wl5 2024 "A" (by decide)⟩

/-- C6: the bucket counts of the distribution add up to the number of distinct
customers with at least one transaction in the selected year — every such
customer lands in exactly one of the buckets `1,2,3,4,5+`. -/
theorem bucket_coverage (l : List Cleaned) (y : Nat) :
    ((dist l y).map (fun p => p.2)).sum = (customersOfYear l y).length := by
  have h1 : (dist l y).map (fun p => p.2)
      = (bucket_order.filter (fun b => decide (¬ bucketRows l y b = []))).map
          (fun b => (bucketRows l y b).length) := by
    show ((bucket_order.filter (fun b => decide (¬ bucketRows l y b = []))).map
          (fun b => (b, (bucketRows l y b).length))).map (fun p => p.2) = _
    rw [List.map_map]
    rfl
  have hcov : ∀ p ∈ tx_per_customer l y,
      (fun q : String × Nat => to_bucket q.2) p ∈ bucket_order := by
    intro p hp
    obtain ⟨hc, hcount⟩ := (mem_tx_per_customer l y p).mp hp
    exact to_bucket_mem_order p.2 (by rw [hcount]; exact tx_count_pos l y p.1 hc)
  have h2 := length_eq_sum_filter_key (fun q : String × Nat => to_bucket q.2)
    bucket_order (by decide) (tx_per_customer l y) hcov
  rw [h1, sum_length_filter_ne_nil (fun b => bucketRows l y b) bucket_order]
  have h3 : (bucket_order.map (fun b => (bucketRows l y b).length)).sum
      = (tx_per_customer l y).length := h2
  rw [h3, tx_per_customer, List.length_map]

/-- C7 counterexample: the Cleaner does NOT filter blank customer ids.  A raw
row with a valid past date and a whitespace-only (but present) customer cell
survives cleaning as a record whose trimmed customer id is the empty string:
`dropna` only removes missing cells, and nothing removes empty strings after
trimming. -/
theorem blank_customer_retained :
    clean wtblBlank "date" "customer" [] ⟨2024, 2, 15⟩ = [⟨⟨2024, 1, 5⟩, ""⟩] ∧
    ¬ (∀ r ∈ clean wtblBlank "date" "customer" [] ⟨2024, 2, 15⟩, ¬ r.customer = "") := by
  constructor
  · decide
  · decide

/-- C7 (amended): every record of the cleaned set has a successfully parsed
date that is at most "today" at day granularity, a customer id that is the
trim of some raw cell, and a customer id not matching any entry of the
(trimmed, blank-free) exclusion list.  Rows whose date or customer cell is
missing are dropped, but a customer id that is blank after trimming is
retained, so non-emptiness does not hold (see `blank_customer_retained`). -/
theorem cleaned_invariant (tbl : RawTable) (dateCol custCol : String)
    (excluded : List String) (today : Date) :
    ∀ r ∈ clean tbl dateCol custCol excluded today,
      r.date ≤ today ∧
      (∃ s, parseDate s = some r.date) ∧
      (∃ s, r.customer = strTrim s) ∧
      ¬ r.customer ∈ excluded := by
  intro r hr
  simp only [clean] at hr
  have hbase : r ∈ (tbl.rows.filterMap (fun row =>
      match row.get dateCol, row.get custCol with
      | some dstr, some cstr =>
        match parseDate dstr with
        | some d => some { date := d, customer := strTrim cstr }
        | none => none
      | _, _ => none)).filter (fun r => decide (r.date ≤ today))
      ∧ ¬ r.customer ∈ excluded := by
    by_cases hex : excluded = []
    · rw [if_pos hex] at hr
      exact ⟨hr, by rw [hex]; exact List.not_mem_nil r.customer⟩
    · rw [if_neg hex] at hr
      obtain ⟨hin, hnm⟩ := List.mem_filter.mp hr
      exact ⟨hin, of_decide_eq_true hnm⟩
  obtain ⟨hsel, hnm⟩ := hbase
  obtain ⟨hin, hle⟩ := List.mem_filter.mp hsel
  obtain ⟨row, hrow, hf⟩ := List.mem_filterMap.mp hin
  refine ⟨of_decide_eq_true hle, ?_⟩
  cases hd : row.get dateCol with
  | none => rw [hd] at hf; simp at hf
  | some dstr =>
    cases hc : row.get custCol with
    | none => rw [hd, hc] at hf; simp at hf
    | some cstr =>
      rw [hd, hc] at hf
      dsimp only at hf
      cases hp : parseDate dstr with
      | none => rw [hp] at hf; simp at hf
      | some d =>
        rw [hp] at hf
        dsimp only at hf
        obtain rfl : ({ date := d, customer := strTrim cstr } : Cleaned) = r :=
          Option.some.inj hf
        exact ⟨⟨dstr, hp⟩, ⟨cstr, rfl⟩, hnm⟩

/-- C7 witness: on a concrete raw table with an untrimmed customer cell, the
cleaned record satisfies all conjuncts of the amended invariant. -/
theorem cleaned_invariant_check :
    (⟨⟨2023, 3, 5⟩, "Bob"⟩ : Cleaned).date ≤ (⟨2024, 1, 1⟩ : Date) ∧
    (∃ s, parseDate s = some (⟨⟨2023, 3, 5⟩, "Bob"⟩ : Cleaned).date) ∧
    (∃ s, (⟨⟨2023, 3, 5⟩, "Bob"⟩ : Cleaned).customer = strTrim s) ∧
    ¬ (⟨⟨2023, 3, 5⟩, "Bob"⟩ : Cleaned).customer ∈ ["X"] :=
  cleaned_invariant wtbl7 "date" "customer" ["X"] ⟨2024, 1, 1⟩
    ⟨⟨2023, 3, 5⟩, "Bob"⟩ (by decide)

/-- C8: if the configured date or customer column is absent from the raw
input's column set, the pipeline halts with the configuration error before any
classification or bucketing; when both columns are present it always returns
the computed structures — row-level parse failures are silently dropped inside
`clean` and never produce an error. -/
theorem missing_column_halts (tbl : RawTable) (dateCol custCol : String)
    (excludedLines : List String) (today : Date) (year : Nat) :
    (¬ (dateCol ∈ tbl.cols ∧ custCol ∈ tbl.cols) →
      pipeline tbl dateCol custCol excludedLines today year
        = Except.error (configError dateCol custCol tbl.cols)) ∧
    ((dateCol ∈ tbl.cols ∧ custCol ∈ tbl.cols) →
      pipeline tbl dateCol custCol excludedLines today year
        = Except.ok
            (classify (clean (renameStrip tbl) dateCol custCol
                (processExcluded excludedLines) today) year today,
             dist (clean (renameStrip tbl) dateCol custCol
                (processExcluded excludedLines) today) year,
             lists_by_bucket (clean (renameStrip tbl) dateCol custCol
                (processExcluded excludedLines) today) year)) := by
  constructor
  · intro h
    simp only [pipeline, if_neg h]
  · intro h
    simp only [pipeline, if_pos h]

/-- C8 witness: a raw table lacking the configured date column makes the
pipeline halt with the configuration error, and a table having both columns
(even with an unparseable row) yields a normal result. -/
theorem missing_column_halts_check :
    pipeline wtbl8 "missing" "customer" [] ⟨2024, 2, 15⟩ 2024
        = Except.error (configError "missing" "customer" ["date", "customer"]) ∧
    pipeline wtbl7 "date" "customer" [] ⟨2024, 2, 15⟩ 2024
        = Except.ok
            (classify (clean (renameStrip wtbl7) "date" "customer"
                (processExcluded []) ⟨2024, 2, 15⟩) 2024 ⟨2024, 2, 15⟩,
             dist (clean (renameStrip wtbl7) "date" "customer"
                (processExcluded []) ⟨2024, 2, 15⟩) 2024,
             lists_by_bucket (clean (renameStrip wtbl7) "date" "customer"
                (processExcluded []) ⟨2024, 2, 15⟩) 2024) :=
  ⟨(missing_column_halts wtbl8 "missing" "customer" [] ⟨2024, 2, 15⟩ 2024).1 (by decide),
   (missing_column_halts wtbl7 "date" "customer" [] ⟨2024, 2, 15⟩ 2024).2 (by decide)⟩
